import Mathlib

/-!
Verification of the dreampipe core against its design description.

Go strings are embedded as lists of characters (`GoStr`); the Go standard
library functions used by the program (`strings.Split`, `strings.Join`,
`strings.TrimSpace`, `strings.HasPrefix`, `strings.HasSuffix`,
`bytes.IndexByte`) are translated below, and each program function is
translated from its Go source.  Fallible operations return `Option` or
`Except`; a Go runtime panic is represented by `none`.
-/

namespace Dreampipe

/-- A Go string, as the list of its characters. -/
abbrev GoStr := List Char

/-- ASCII whitespace, as recognised by Go's `unicode.IsSpace`
(the inputs relevant here are ASCII). -/
def isSpace (c : Char) : Bool :=
  c == ' ' || c == '\t' || c == '\n' || c == '\x0b' || c == '\x0c' || c == '\r'

/-- Go `strings.TrimSpace`: drop leading and trailing whitespace. -/
def trimSpace (s : GoStr) : GoStr :=
  ((s.dropWhile isSpace).reverse.dropWhile isSpace).reverse

/-- Helper for `splitOnNl`: prepend a character to the first component. -/
def consHead (c : Char) : List GoStr → List GoStr
  | [] => [[c]]
  | h :: t => (c :: h) :: t

/-- Go `strings.Split(s, "\n")`. -/
def splitOnNl : GoStr → List GoStr
  | [] => [[]]
  | c :: rest => if c = '\n' then [] :: splitOnNl rest else consHead c (splitOnNl rest)

/-- Go `strings.Join(xs, "\n")`. -/
def joinNl : List GoStr → GoStr
  | [] => []
  | [x] => x
  | x :: y :: t => x ++ '\n' :: joinNl (y :: t)

/-- Go `bytes.IndexByte(s, '\n')`: index of the first newline, if any. -/
def indexOfNl : GoStr → Option Nat
  | [] => none
  | c :: rest => if c = '\n' then some 0 else (indexOfNl rest).map (· + 1)

/-- Go `strings.HasSuffix(s, "\n")`. -/
def endsWithNl (s : GoStr) : Bool :=
  s.getLast? == some '\n'

/-- The Markdown fence marker, three backticks. -/
def fenceMarker : GoStr := "```".data

/-- Go `strings.HasPrefix(s, "```")`. -/
def startsWithTicks (s : GoStr) : Bool :=
  fenceMarker.isPrefixOf s

/-- A line that is exactly the fence marker after trimming
(the closing-fence test in `MarkdownCodeBlockFilter.Apply`). -/
def isFenceLine (l : GoStr) : Bool :=
  trimSpace l == fenceMarker

/-- The backward search for the last closing-fence line in
`MarkdownCodeBlockFilter.Apply`: Go's
`for i := len(lines) - 1; i >= 0; i--`, expressed by recursion on the
number of indices left to inspect. -/
def lastFenceFrom (lines : List GoStr) : Nat → Option Nat
  | 0 => none
  | i + 1 => if isFenceLine (lines.getD i []) then some i else lastFenceFrom lines i

/-- Index of the last line of `lines` that trims to the bare fence marker. -/
def lastFenceIdx (lines : List GoStr) : Option Nat :=
  lastFenceFrom lines lines.length

/-- `MarkdownCodeBlockFilter.Apply` from `internal/filters/markdown_filter.go`
(the version whose closing fence is the last line that trims to three
backticks).  `none` represents the Go runtime panic raised by the slice
expression `lines[1:lastLineIndex]` when `lastLineIndex` is `0`, which
happens when the first line itself is the only bare fence line. -/
def applyFilter (input : GoStr) : Option GoStr :=
  let lines := splitOnNl input
  if lines.length < 2 then
    some input
  else
    let firstLine := trimSpace (lines.getD 0 [])
    match lastFenceIdx lines with
    | none => some input
    | some lastLineIndex =>
      if startsWithTicks firstLine then
        if lastLineIndex = 1 then
          some []
        else if lastLineIndex = 0 then
          none
        else
          let filteredLines := (lines.drop 1).take (lastLineIndex - 1)
          let output := joinNl filteredLines
          if endsWithNl input && !output.isEmpty then some (output ++ "\n".data)
          else some output
      else some input

/-! ## Prompt builder (`internal/prompt/builder.go`) -/

/-- The task-section delimiter and header used by `prompt.Build`. -/
def taskHeader : GoStr := "\n\n---\n\nYour task:\n\n".data

/-- The input-section delimiter and header used by `prompt.Build`. -/
def inputHeader : GoStr := "\n\n---\n\nInput:\n\n".data

/-- The context-section delimiter and header used by `prompt.Build`. -/
def contextHeader : GoStr := "\n\n---\n\nContext:\n\n".data

/-- `prompt.Build` with optional context data (`internal/prompt/builder.go`):
trim the four segments; with empty trimmed context produce
preamble/task/input, otherwise insert the context section between the
preamble and the task section. -/
def buildPrompt (agentPrompt userTask inputData contextData : GoStr) : GoStr :=
  let a := trimSpace agentPrompt
  let u := trimSpace userTask
  let i := trimSpace inputData
  let c := trimSpace contextData
  if c = [] then
    a ++ taskHeader ++ u ++ inputHeader ++ i
  else
    a ++ contextHeader ++ c ++ taskHeader ++ u ++ inputHeader ++ i

/-- The three-argument `prompt.Build` called by `Runner.Run`
(the context-free variant of the builder). -/
def buildPrompt3 (agentPrompt userTask inputData : GoStr) : GoStr :=
  let a := trimSpace agentPrompt
  let u := trimSpace userTask
  let i := trimSpace inputData
  a ++ taskHeader ++ u ++ inputHeader ++ i

/-- The static `agentPrompt` constant of `internal/app/runner.go`. -/
def agentPromptText : GoStr :=
  ("You are a Unix command line filter, you will follow the instructions below " ++
   "to transform, translate, convert, edit or modify the input provided below " ++
   "to the desired outcome.").data

/-! ## Configuration and the LLM client factory (package `llm`) -/

/-- `config.LLMConfig`: per-provider settings. -/
structure LLMConfig where
  baseURL : String
  apiKey : String
  model : String
deriving DecidableEq

/-- `config.Config`: default provider, request timeout in seconds, and the
per-provider settings map (modelled as an association list). -/
structure Config where
  defaultProvider : String
  requestTimeoutSeconds : Int
  llms : List (String × LLMConfig)
deriving DecidableEq

/-- The value returned by a provider's `NewClient`.  The constructor sources
(packages `llm/gemini`, `llm/ollama`, `llm/groq`) record exactly the
arguments the factory passes: `gemini.NewClient(ctx, apiKey, model)`,
`ollama.NewClient(baseURL, model, requestTimeout)`,
`groq.NewClient(apiKey, model, requestTimeout)`.  Modelled from the spec:
the provider client packages themselves are not part of the core sources;
per the design, construction is a pure binding of credentials, endpoint,
model and timeout, so `NewClient` is modelled as always succeeding. -/
inductive Client where
  | gemini (apiKey model : String)
  | ollama (baseURL model : String) (requestTimeout : Int)
  | groq (apiKey model : String) (requestTimeout : Int)
deriving DecidableEq

/-- The error cases of `llm.GetClient`, each carrying the provider name its
Go message interpolates. -/
inductive FactoryError where
  | noDefaultProvider
  | providerNotFound (name : String)
  | missingAPIKey (provider : String)
  | missingBaseURL (provider : String)
  | unsupportedProvider (name : String)
deriving DecidableEq

/-- The effective request timeout computed by `llm.GetClient`:
the configured value, or 60 seconds when that is not positive. -/
def effectiveTimeout (t : Int) : Int :=
  if t ≤ 0 then 60 else t

/-- `llm.GetClient` (package `llm`, the factory with the gemini, ollama and
groq cases): validate the default provider name and its settings entry, then
construct the matching client. -/
def getClient (cfg : Config) : Except FactoryError Client :=
  let providerName := cfg.defaultProvider
  if providerName = "" then
    .error .noDefaultProvider
  else
    match List.lookup providerName cfg.llms with
    | none => .error (.providerNotFound providerName)
    | some llmCfg =>
      let requestTimeout := effectiveTimeout cfg.requestTimeoutSeconds
      if providerName = "gemini" then
        if llmCfg.apiKey = "" then .error (.missingAPIKey "Gemini")
        else .ok (.gemini llmCfg.apiKey llmCfg.model)
      else if providerName = "ollama" then
        if llmCfg.baseURL = "" then .error (.missingBaseURL "Ollama")
        else .ok (.ollama llmCfg.baseURL llmCfg.model requestTimeout)
      else if providerName = "groq" then
        if llmCfg.apiKey = "" then .error (.missingAPIKey "Groq")
        else .ok (.groq llmCfg.apiKey llmCfg.model requestTimeout)
      else .error (.unsupportedProvider providerName)

/-! ## Instruction resolution (`internal/app/modes.go`) -/

/-- `app.RunMode`. -/
inductive RunMode where
  | ModeAdHoc
  | ModeScript
deriving DecidableEq

/-- The error cases of `app.resolveInstruction`. -/
inductive RIError where
  | emptyAdHocInstruction
  | emptyScriptPath
  | readFailed (path : GoStr)
  | onlyShebang (path : GoStr)
deriving DecidableEq

/-- Go `strings.HasPrefix(s, "#!")`. -/
def startsWithShebang (s : GoStr) : Bool :=
  ("#!".data).isPrefixOf s

/-- `app.resolveInstruction`, with the file system abstracted as a partial
map from paths to contents (`none` models a read error, the `IOError`
path of `iohandler.ReadAllFromFile`). -/
def resolveInstruction (fs : GoStr → Option GoStr) (mode : RunMode)
    (instructionOrPath : GoStr) : Except RIError GoStr :=
  match mode with
  | .ModeAdHoc =>
    if instructionOrPath = [] then .error .emptyAdHocInstruction
    else .ok (trimSpace instructionOrPath)
  | .ModeScript =>
    if instructionOrPath = [] then .error .emptyScriptPath
    else
      match fs instructionOrPath with
      | none => .error (.readFailed instructionOrPath)
      | some content =>
        match indexOfNl content with
        | none =>
          if startsWithShebang content then .error (.onlyShebang instructionOrPath)
          else .ok (trimSpace content)
        | some firstNewline => .ok (trimSpace (content.drop (firstNewline + 1)))

/-! ## Output writing (`internal/iohandler/iohandler.go`) -/

/-- `Streams.WriteToStdout` on a healthy stream: the list of chunks written
to the `Out` stream.  The newline chunk is appended exactly when the data is
non-empty and its last byte is not a newline. -/
def writeToStdoutData (data : GoStr) : List GoStr :=
  if 0 < data.length ∧ data.getLast? ≠ some '\n' then [data, "\n".data]
  else [data]

/-- Everything written to a stream, in order. -/
def concatAll (chunks : List GoStr) : GoStr :=
  chunks.foldr (· ++ ·) []

/-! ## The orchestrator (`internal/app/runner.go`) -/

/-- The failures `Runner.Run` can abort with, in pipeline order. -/
inductive RunError where
  | resolveFailed (e : RIError)
  | emptyInstruction
  | stdinFailed
  | clientInitFailed (e : FactoryError)
  | generateFailed
deriving DecidableEq

/-- The observable outcome of one `Runner.Run` invocation: the chunks
written to `Out`, the error messages written to `Err`, and the returned
error if any. -/
structure RunResult where
  outWrites : List GoStr
  errWrites : List GoStr
  result : Except RunError Unit

/-- `Runner.Run` with `debug` off (so `LogInfo` writes nothing): resolve the
instruction, reject an empty one, read stdin, build the prompt, initialise
the client and dispatch, then write the response to stdout.  Stdin is
abstracted as `Option` (`none` models a read error), client initialisation
as the factory result, and the network dispatch as a `generate` oracle
(`none` models a provider or deadline error).  Error messages written to
`Err` are recorded by their Go format strings. -/
def runnerRun (fs : GoStr → Option GoStr) (stdin : Option GoStr)
    (clientInit : Except FactoryError Client)
    (generate : Client → GoStr → Option GoStr)
    (mode : RunMode) (instructionOrPath : GoStr) : RunResult :=
  match resolveInstruction fs mode instructionOrPath with
  | .error e =>
    ⟨[], ["Error determining instruction".data], .error (.resolveFailed e)⟩
  | .ok userInstruction =>
    if userInstruction = [] then
      ⟨[], ["resolved user instruction is empty".data], .error .emptyInstruction⟩
    else
      match stdin with
      | none => ⟨[], ["Error reading from stdin".data], .error .stdinFailed⟩
      | some inputDataBytes =>
        let finalPrompt := buildPrompt3 agentPromptText userInstruction inputDataBytes
        match clientInit with
        | .error e =>
          ⟨[], ["Error initializing LLM client".data], .error (.clientInitFailed e)⟩
        | .ok llmClient =>
          match generate llmClient finalPrompt with
          | none => ⟨[], ["Error during LLM request".data], .error .generateFailed⟩
          | some llmResponse => ⟨writeToStdoutData llmResponse, [], .ok ()⟩

/-! ## Helper lemmas about the embedded string operations -/

theorem splitOnNl_ne_nil (s : GoStr) : splitOnNl s ≠ [] := by
  cases s with
  | nil => simp [splitOnNl]
  | cons c rest =>
    simp only [splitOnNl]
    split
    · simp
    · cases h : splitOnNl rest <;> simp [consHead]

theorem joinNl_consHead (c : Char) (xs : List GoStr) (h : xs ≠ []) :
    joinNl (consHead c xs) = c :: joinNl xs := by
  match xs with
  | [] => exact absurd rfl h
  | [x] => rfl
  | x :: y :: t => rfl

theorem joinNl_splitOnNl (s : GoStr) : joinNl (splitOnNl s) = s := by
  induction s with
  | nil => rfl
  | cons c rest ih =>
    simp only [splitOnNl]
    split
    · rename_i hc
      subst hc
      match h : splitOnNl rest with
      | [] => exact absurd h (splitOnNl_ne_nil rest)
      | x :: t =>
        rw [h] at ih
        simp [joinNl, ih]
    · rw [joinNl_consHead c _ (splitOnNl_ne_nil rest), ih]

theorem consHead_append (c : Char) (xs ys : List GoStr) (h : xs ≠ []) :
    consHead c (xs ++ ys) = consHead c xs ++ ys := by
  match xs with
  | [] => exact absurd rfl h
  | x :: t => rfl

theorem splitOnNl_append (a b : GoStr) :
    splitOnNl (a ++ '\n' :: b) = splitOnNl a ++ splitOnNl b := by
  induction a with
  | nil => simp [splitOnNl]
  | cons c rest ih =>
    simp only [List.cons_append, splitOnNl, List.append_eq]
    split
    · simp [ih]
    · rw [ih, consHead_append c _ _ (splitOnNl_ne_nil rest)]

theorem lastFenceFrom_eq_some (lines : List GoStr) (L : Nat) :
    ∀ k, L < k → isFenceLine (lines.getD L []) = true →
    (∀ j, L < j → j < k → isFenceLine (lines.getD j []) = false) →
    lastFenceFrom lines k = some L := by
  intro k
  induction k with
  | zero => omega
  | succ m ih =>
    intro hLk hf hafter
    by_cases hm : L = m
    · subst hm
      rw [lastFenceFrom, if_pos hf]
    · have hLm : L < m := by omega
      have hfm : isFenceLine (lines.getD m []) = false := hafter m hLm (by omega)
      rw [lastFenceFrom, if_neg (by rw [hfm]; simp)]
      exact ih hLm hf (fun j h1 h2 => hafter j h1 (by omega))

theorem getD_snoc_length (xs : List GoStr) (a d : GoStr) :
    (xs ++ [a]).getD xs.length d = a := by
  induction xs with
  | nil => rfl
  | cons x t ih =>
    rw [List.cons_append, List.length_cons, List.getD_cons_succ]
    exact ih

theorem indexOfNl_eq_none_iff (s : GoStr) : indexOfNl s = none ↔ '\n' ∉ s := by
  induction s with
  | nil => simp [indexOfNl]
  | cons c rest ih =>
    by_cases hc : c = '\n'
    · subst hc
      simp [indexOfNl]
    · simp only [indexOfNl, if_neg hc, Option.map_eq_none', ih, List.mem_cons]
      constructor
      · intro h hmem
        rcases hmem with h1 | h2
        · exact hc h1.symm
        · exact h h2
      · intro h h2
        exact h (Or.inr h2)

theorem drop_after_first_nl (s : GoStr) :
    ∀ i, indexOfNl s = some i → s.drop (i + 1) = joinNl ((splitOnNl s).drop 1) := by
  induction s with
  | nil => intro i h; simp [indexOfNl] at h
  | cons c rest ih =>
    intro i h
    simp only [indexOfNl] at h
    split at h
    · rename_i hc
      subst hc
      cases h
      simp only [List.drop_succ_cons, List.drop_zero, splitOnNl, if_pos rfl, List.drop_one,
        List.tail_cons]
      exact (joinNl_splitOnNl rest).symm
    · rename_i hc
      match hrest : indexOfNl rest with
      | none => rw [hrest] at h; simp at h
      | some j =>
        rw [hrest] at h
        simp only [Option.map_some'] at h
        cases h
        simp only [List.drop_succ_cons]
        rw [ih j hrest]
        rw [splitOnNl, if_neg hc]
        match hsp : splitOnNl rest with
        | [] => exact absurd hsp (splitOnNl_ne_nil rest)
        | x :: t => simp [consHead]



/-! ## Claims about the output filter -/

/-- Claim C2, amended: on an input of at least two lines whose first line
(trimmed) starts with the fence marker and whose last closing-fence line —
the last line after the first that trims to exactly three backticks — is at
index `L`, `Apply` returns the lines strictly between line `0` and line `L`
joined by newline (the empty string when the two fence lines are adjacent,
and the boundary is the first opening and last closing fence when several
blocks are present), except that one newline is appended when the original
input ended with a newline and the joined content is non-empty. -/
theorem apply_between_first_and_last_fence (input : GoStr) (L : Nat)
    (hlen : 2 ≤ (splitOnNl input).length)
    (hfirst : startsWithTicks (trimSpace ((splitOnNl input).getD 0 [])) = true)
    (hL1 : 1 ≤ L) (hLlen : L < (splitOnNl input).length)
    (hfence : isFenceLine ((splitOnNl input).getD L []) = true)
    (hlast : ∀ j, L < j → j < (splitOnNl input).length →
      isFenceLine ((splitOnNl input).getD j []) = false) :
    applyFilter input =
      some (if endsWithNl input && !(joinNl (((splitOnNl input).drop 1).take (L - 1))).isEmpty
            then joinNl (((splitOnNl input).drop 1).take (L - 1)) ++ "\n".data
            else joinNl (((splitOnNl input).drop 1).take (L - 1))) := by
  have hfi : lastFenceIdx (splitOnNl input) = some L :=
    lastFenceFrom_eq_some _ L _ hLlen hfence hlast
  simp only [applyFilter, hfi]
  rw [if_neg (by omega : ¬ (splitOnNl input).length < 2), if_pos hfirst]
  by_cases hL : L = 1
  · subst hL
    rw [if_pos rfl]
    simp [joinNl]
  · rw [if_neg hL, if_neg (by omega : ¬ L = 0)]
    split <;> rfl

/-- Claim C2 witness: a fenced JSON-style block is stripped to its body. -/
theorem apply_between_first_and_last_fence_witness :
    applyFilter ("```json\nhello\n```".data) = some ("hello".data) := by
  have h := apply_between_first_and_last_fence ("```json\nhello\n```".data) 2
    (by decide) (by decide) (by decide) (by decide) (by decide)
    (by
      intro j h1 h2
      exfalso
      have h3 : (splitOnNl ("```json\nhello\n```".data)).length = 3 := by decide
      omega)
  rw [h]
  decide

/-- Claim C2 counterexample: on `"```\nab\n```\n"` the lines strictly
between the fences join to `"ab"`, but `Apply` returns `"ab\n"` — the claim
as stated omits the trailing-newline rule. -/
theorem apply_trailing_newline_counterexample :
    applyFilter ("```\nab\n```\n".data) = some ("ab\n".data) ∧
    joinNl (((splitOnNl ("```\nab\n```\n".data)).drop 1).take 1) = "ab".data ∧
    ("ab\n".data : GoStr) ≠ "ab".data := by
  refine ⟨by decide, by decide, by decide⟩

/-- Claim C3: evaluation at the failing input.  On `"```\nhello"` — first
line exactly the fence marker, no later closing-fence line — the backward
search stops at index `0` and the Go slice expression `lines[1:0]` panics
(modelled as `none`); the claimed behaviour is to return the input
unchanged without panicking. -/
theorem apply_panics_on_lone_leading_fence :
    applyFilter ("```\nhello".data) = none := by decide

/-- Claim C4, amended: when `Apply` takes the fence-removal branch on an
input that ends with a newline and the filtered result is non-empty, the
result ends with a (at least one) newline: a single newline character is
appended to the joined content, but the content itself may already end with
one, so "exactly one trailing newline" does not hold in general. -/
theorem apply_fenced_trailing_newline (input : GoStr) (L : Nat) (r : GoStr)
    (hlen : 2 ≤ (splitOnNl input).length)
    (hfirst : startsWithTicks (trimSpace ((splitOnNl input).getD 0 [])) = true)
    (hfi : lastFenceIdx (splitOnNl input) = some L)
    (hL1 : 1 ≤ L)
    (hr : applyFilter input = some r) (hne : r ≠ [])
    (hnl : endsWithNl input = true) :
    r.getLast? = some '\n' := by
  simp only [applyFilter, hfi] at hr
  rw [if_neg (by omega : ¬ (splitOnNl input).length < 2), if_pos hfirst] at hr
  by_cases hL : L = 1
  · subst hL
    rw [if_pos rfl] at hr
    cases hr
    exact absurd rfl hne
  · rw [if_neg hL, if_neg (by omega : ¬ L = 0), hnl] at hr
    split at hr
    · cases hr
      rw [List.getLast?_append_of_ne_nil _ (by decide : ("\n".data : GoStr) ≠ [])]
      decide
    · rename_i hcond
      cases hr
      exfalso
      apply hne
      simp only [Bool.true_and, Bool.not_eq_true', Bool.not_eq_false] at hcond
      exact List.isEmpty_iff.mp hcond

/-- Claim C4 witness: stripping `"```\ncontent\n```\n"` yields
`"content\n"`, which ends with a newline. -/
theorem apply_fenced_trailing_newline_witness :
    (("content\n".data : GoStr)).getLast? = some '\n' :=
  apply_fenced_trailing_newline ("```\ncontent\n```\n".data) 2 ("content\n".data)
    (by decide) (by decide) (by decide) (by decide) (by decide) (by decide) (by decide)

/-- Claim C4 counterexample: on `"```\ncontent\n\n```\n"` the filtered
result is `"content\n\n"`, which ends with two newline characters, not
exactly one. -/
theorem apply_double_trailing_newline_counterexample :
    applyFilter ("```\ncontent\n\n```\n".data) = some ("content\n\n".data) ∧
    endsWithNl ("```\ncontent\n\n```\n".data) = true ∧
    (("\n\n".data : GoStr)).isSuffixOf ("content\n\n".data) = true := by
  refine ⟨by decide, by decide, by decide⟩

/-- Claim C8: wrapping any text `T` in a fence — a `"```"` line, then `T`,
then a closing `"```"` line — and filtering yields back exactly `T`
(the wrapped input never ends with a newline, so the trailing-newline rule
adds nothing here). -/
theorem apply_roundtrip (T : GoStr)
    (_hT : ∀ l ∈ splitOnNl T, isFenceLine l = false) :
    applyFilter (fenceMarker ++ '\n' :: (T ++ '\n' :: fenceMarker)) = some T := by
  have hmidne : splitOnNl T ≠ [] := splitOnNl_ne_nil T
  have hn1 : 1 ≤ (splitOnNl T).length := List.length_pos.mpr hmidne
  have hsplit : splitOnNl (fenceMarker ++ '\n' :: (T ++ '\n' :: fenceMarker)) =
      fenceMarker :: (splitOnNl T ++ [fenceMarker]) := by
    rw [splitOnNl_append, splitOnNl_append]
    rfl
  have hlen : (splitOnNl (fenceMarker ++ '\n' :: (T ++ '\n' :: fenceMarker))).length =
      (splitOnNl T).length + 2 := by
    rw [hsplit]
    simp
  have hfi : lastFenceIdx (splitOnNl (fenceMarker ++ '\n' :: (T ++ '\n' :: fenceMarker))) =
      some ((splitOnNl T).length + 1) := by
    unfold lastFenceIdx
    rw [hlen]
    show lastFenceFrom _ (((splitOnNl T).length + 1) + 1) = _
    rw [lastFenceFrom]
    rw [hsplit, List.getD_cons_succ, getD_snoc_length]
    rw [if_pos (by decide : isFenceLine fenceMarker = true)]
  have hnl : endsWithNl (fenceMarker ++ '\n' :: (T ++ '\n' :: fenceMarker)) = false := by
    unfold endsWithNl
    rw [List.getLast?_append_of_ne_nil _ (by simp : ('\n' :: (T ++ '\n' :: fenceMarker)) ≠ [])]
    rw [show ('\n' :: (T ++ '\n' :: fenceMarker)) = ('\n' :: (T ++ ['\n'])) ++ fenceMarker by simp]
    rw [List.getLast?_append_of_ne_nil _ (by decide : (fenceMarker : GoStr) ≠ [])]
    decide
  simp only [applyFilter, hfi]
  rw [if_neg (by omega :
    ¬ (splitOnNl (fenceMarker ++ '\n' :: (T ++ '\n' :: fenceMarker))).length < 2)]
  rw [hsplit]
  rw [if_pos (show
    startsWithTicks (trimSpace ((fenceMarker :: (splitOnNl T ++ [fenceMarker])).getD 0 [])) = true by
    rw [List.getD_cons_zero]
    decide)]
  rw [if_neg (by omega : ¬ (splitOnNl T).length + 1 = 1),
      if_neg (by omega : ¬ (splitOnNl T).length + 1 = 0)]
  rw [hnl]
  simp only [Bool.false_and, Bool.false_eq_true, if_false]
  rw [show (splitOnNl T).length + 1 - 1 = (splitOnNl T).length by omega]
  rw [List.drop_one, List.tail_cons, List.take_left, joinNl_splitOnNl]

/-- Claim C8 witness: a two-line text survives the wrap-and-filter round
trip. -/
theorem apply_roundtrip_witness :
    applyFilter (fenceMarker ++ '\n' :: ("hello\nworld".data ++ '\n' :: fenceMarker)) =
      some ("hello\nworld".data) :=
  apply_roundtrip ("hello\nworld".data) (by decide)

/-! ## Claims about the prompt builder -/

/-- Claim C7, amended: with non-empty preamble, instruction and input, the
built prompt contains no context section exactly when the *trimmed* context
is empty, and otherwise exactly one context section, placed between the
preamble and the task section, with the input section last.  (The builder
trims the context before testing it, so a whitespace-only context argument
behaves like an empty one.) -/
theorem buildPrompt_sections (a u i c : GoStr)
    (_ha : a ≠ []) (_hu : u ≠ []) (_hi : i ≠ []) :
    (trimSpace c = [] →
      buildPrompt a u i c =
        trimSpace a ++ taskHeader ++ trimSpace u ++ inputHeader ++ trimSpace i) ∧
    (trimSpace c ≠ [] →
      buildPrompt a u i c =
        trimSpace a ++ contextHeader ++ trimSpace c ++ taskHeader ++ trimSpace u ++
          inputHeader ++ trimSpace i) := by
  constructor
  · intro h
    simp only [buildPrompt, if_pos h]
  · intro h
    simp only [buildPrompt, if_neg h]

/-- Claim C7 witness: with a non-empty context the four sections appear in
order. -/
theorem buildPrompt_sections_witness :
    buildPrompt ("P".data) ("T".data) ("D".data) ("C".data) =
      trimSpace ("P".data) ++ contextHeader ++ trimSpace ("C".data) ++ taskHeader ++
        trimSpace ("T".data) ++ inputHeader ++ trimSpace ("D".data) :=
  (buildPrompt_sections ("P".data) ("T".data) ("D".data) ("C".data)
    (by decide) (by decide) (by decide)).2 (by decide)

/-- Claim C7 counterexample: a whitespace-only context argument is
non-empty, yet the built prompt contains no context section at all. -/
theorem buildPrompt_whitespace_context_counterexample :
    (" ".data : GoStr) ≠ [] ∧
    buildPrompt ("A".data) ("U".data) ("I".data) (" ".data) =
      "A\n\n---\n\nYour task:\n\nU\n\n---\n\nInput:\n\nI".data ∧
    ¬ List.IsInfix ("Context".data)
      (buildPrompt ("A".data) ("U".data) ("I".data) (" ".data)) := by
  refine ⟨by decide, by decide, by decide⟩

/-! ## Claims about the client factory -/

/-- Claim C5, amended: `GetClient` fails when the default provider name is
empty; fails, naming the provider, when the name has no settings entry;
for the three supported providers it fails when the required field is empty
(API key for gemini and groq, base URL for ollama) and otherwise returns
the matching client, passing the effective timeout (configured value if
positive, else 60 seconds) to the ollama and groq constructors — the gemini
constructor receives only the key and model; any other configured provider
name fails with an unsupported-provider error. -/
theorem getClient_cases (cfg : Config) :
    (cfg.defaultProvider = "" → getClient cfg = .error .noDefaultProvider) ∧
    (cfg.defaultProvider ≠ "" → List.lookup cfg.defaultProvider cfg.llms = none →
      getClient cfg = .error (.providerNotFound cfg.defaultProvider)) ∧
    (∀ lc, cfg.defaultProvider = "gemini" → List.lookup "gemini" cfg.llms = some lc →
      lc.apiKey ≠ "" → getClient cfg = .ok (.gemini lc.apiKey lc.model)) ∧
    (∀ lc, cfg.defaultProvider = "gemini" → List.lookup "gemini" cfg.llms = some lc →
      lc.apiKey = "" → getClient cfg = .error (.missingAPIKey "Gemini")) ∧
    (∀ lc, cfg.defaultProvider = "ollama" → List.lookup "ollama" cfg.llms = some lc →
      lc.baseURL ≠ "" →
      getClient cfg =
        .ok (.ollama lc.baseURL lc.model (effectiveTimeout cfg.requestTimeoutSeconds))) ∧
    (∀ lc, cfg.defaultProvider = "ollama" → List.lookup "ollama" cfg.llms = some lc →
      lc.baseURL = "" → getClient cfg = .error (.missingBaseURL "Ollama")) ∧
    (∀ lc, cfg.defaultProvider = "groq" → List.lookup "groq" cfg.llms = some lc →
      lc.apiKey ≠ "" →
      getClient cfg =
        .ok (.groq lc.apiKey lc.model (effectiveTimeout cfg.requestTimeoutSeconds))) ∧
    (∀ lc, cfg.defaultProvider = "groq" → List.lookup "groq" cfg.llms = some lc →
      lc.apiKey = "" → getClient cfg = .error (.missingAPIKey "Groq")) ∧
    (∀ lc, cfg.defaultProvider ≠ "" → cfg.defaultProvider ≠ "gemini" →
      cfg.defaultProvider ≠ "ollama" → cfg.defaultProvider ≠ "groq" →
      List.lookup cfg.defaultProvider cfg.llms = some lc →
      getClient cfg = .error (.unsupportedProvider cfg.defaultProvider)) := by
  refine ⟨?_, ?_, ?_, ?_, ?_, ?_, ?_, ?_, ?_⟩
  · intro h
    simp [getClient, h]
  · intro h hl
    simp [getClient, h, hl]
  · intro lc h hl hk
    simp [getClient, h, hl, hk]
  · intro lc h hl hk
    simp [getClient, h, hl, hk]
  · intro lc h hl hb
    simp [getClient, h, hl, hb]
  · intro lc h hl hb
    simp [getClient, h, hl, hb]
  · intro lc h hl hk
    simp [getClient, h, hl, hk]
  · intro lc h hl hk
    simp [getClient, h, hl, hk]
  · intro lc h1 h2 h3 h4 hl
    simp [getClient, h1, h2, h3, h4, hl]

/-- Claim C5 witness: a configured ollama provider with a non-positive
timeout yields the ollama client with the 60-second fallback. -/
theorem getClient_cases_witness :
    getClient ⟨"ollama", 0, [("ollama", ⟨"http://localhost:11434", "", "llama3"⟩)]⟩ =
      .ok (.ollama "http://localhost:11434" "llama3" (effectiveTimeout 0)) :=
  ((getClient_cases ⟨"ollama", 0, [("ollama", ⟨"http://localhost:11434", "", "llama3"⟩)]⟩
    ).2.2.2.2.1) ⟨"http://localhost:11434", "", "llama3"⟩ rfl (by decide) (by decide)

/-- Claim C5 counterexample: a provider that is named, configured, and has
a non-empty credential, but is not gemini, ollama or groq: the factory does
not construct a client, contradicting the claim's "otherwise constructs and
returns the matching client". -/
theorem getClient_unsupported_provider_counterexample :
    ("mistral" : String) ≠ "" ∧
    List.lookup "mistral" [("mistral", (⟨"", "key", "m"⟩ : LLMConfig))] =
      some ⟨"", "key", "m"⟩ ∧
    getClient ⟨"mistral", 30, [("mistral", ⟨"", "key", "m"⟩)]⟩ =
      .error (.unsupportedProvider "mistral") := by
  refine ⟨by decide, by decide, rfl⟩

/-! ## Claims about instruction resolution -/

/-- Claim C6, amended: in ad-hoc mode the instruction is the
whitespace-trimmed argument (an error only when the argument is the empty
string); in script mode the file's first line is dropped and the remainder
trimmed, with an error when the file is unreadable, or when it has no
newline at all and starts with `#!` — a file that is a directive line
followed by nothing yields the empty instruction with *no* error (the
runner rejects the empty instruction afterwards). -/
theorem resolveInstruction_cases (fs : GoStr → Option GoStr) (p s content : GoStr) :
    (s ≠ [] → resolveInstruction fs .ModeAdHoc s = .ok (trimSpace s)) ∧
    (resolveInstruction fs .ModeAdHoc [] = .error .emptyAdHocInstruction) ∧
    (resolveInstruction fs .ModeScript [] = .error .emptyScriptPath) ∧
    (p ≠ [] → fs p = none →
      resolveInstruction fs .ModeScript p = .error (.readFailed p)) ∧
    (p ≠ [] → fs p = some content → '\n' ∈ content →
      resolveInstruction fs .ModeScript p =
        .ok (trimSpace (joinNl ((splitOnNl content).drop 1)))) ∧
    (p ≠ [] → fs p = some content → '\n' ∉ content → startsWithShebang content = true →
      resolveInstruction fs .ModeScript p = .error (.onlyShebang p)) ∧
    (p ≠ [] → fs p = some content → '\n' ∉ content → startsWithShebang content = false →
      resolveInstruction fs .ModeScript p = .ok (trimSpace content)) := by
  refine ⟨?_, ?_, ?_, ?_, ?_, ?_, ?_⟩
  · intro h
    simp [resolveInstruction, h]
  · simp [resolveInstruction]
  · simp [resolveInstruction]
  · intro hp hfs
    simp [resolveInstruction, hp, hfs]
  · intro hp hfs hmem
    match hidx : indexOfNl content with
    | none => exact absurd ((indexOfNl_eq_none_iff content).mp hidx) (by simpa using hmem)
    | some i =>
      have hdrop := drop_after_first_nl content i hidx
      simp [resolveInstruction, hp, hfs, hidx, hdrop]
  · intro hp hfs hmem hsb
    have hidx : indexOfNl content = none := (indexOfNl_eq_none_iff content).mpr hmem
    simp [resolveInstruction, hp, hfs, hidx, hsb]
  · intro hp hfs hmem hsb
    have hidx : indexOfNl content = none := (indexOfNl_eq_none_iff content).mpr hmem
    simp [resolveInstruction, hp, hfs, hidx, hsb]

/-- Claim C6 witness: a script whose first line is a directive and whose
body is an instruction resolves to the trimmed body. -/
theorem resolveInstruction_cases_witness :
    resolveInstruction (fun q => if q = "s".data then some ("#!x\nsay hi\n".data) else none)
      .ModeScript ("s".data) = .ok ("say hi".data) := by
  have h := (resolveInstruction_cases
    (fun q => if q = "s".data then some ("#!x\nsay hi\n".data) else none)
    ("s".data) ("s".data) ("#!x\nsay hi\n".data)).2.2.2.2.1
    (by decide) (by decide) (by decide)
  rw [h]
  rfl

/-- Claim C6 counterexample: a script file containing only a directive line
and its newline resolves to the empty instruction with *no* error, and the
ad-hoc instruction is returned trimmed, not literally. -/
theorem resolveInstruction_directive_only_counterexample :
    resolveInstruction
      (fun q => if q = "s".data then some ("#!/usr/bin/env dreampipe\n".data) else none)
      .ModeScript ("s".data) = .ok [] ∧
    resolveInstruction (fun _ => none) .ModeAdHoc (" hi ".data) = .ok ("hi".data) ∧
    (" hi ".data : GoStr) ≠ "hi".data := by
  refine ⟨rfl, rfl, by decide⟩

/-! ## Claims about the orchestrator and output writing -/

/-- Claim C9: whenever `Runner.Run` fails — in instruction resolution, the
empty-instruction check, reading stdin, client initialisation or the
provider call — nothing is written to the `Out` stream and an error message
is written to the `Err` stream. -/
theorem runner_no_output_on_failure (fs : GoStr → Option GoStr) (stdin : Option GoStr)
    (clientInit : Except FactoryError Client) (generate : Client → GoStr → Option GoStr)
    (mode : RunMode) (iop : GoStr) (e : RunError)
    (h : (runnerRun fs stdin clientInit generate mode iop).result = .error e) :
    (runnerRun fs stdin clientInit generate mode iop).outWrites = [] ∧
    (runnerRun fs stdin clientInit generate mode iop).errWrites ≠ [] := by
  rcases hres : resolveInstruction fs mode iop with e1 | ui
  · simp [runnerRun, hres]
  · by_cases hui : ui = []
    · simp [runnerRun, hres, hui]
    · rcases hstdin : stdin with _ | d
      · simp [runnerRun, hres, hui, hstdin]
      · rcases hci : clientInit with e2 | cl
        · simp [runnerRun, hres, hui, hstdin, hci]
        · rcases hg : generate cl (buildPrompt3 agentPromptText ui d) with _ | resp
          · simp [runnerRun, hres, hui, hstdin, hci, hg]
          · simp [runnerRun, hres, hui, hstdin, hci, hg] at h

/-- Claim C9 witness: a failing script read leaves stdout untouched. -/
theorem runner_no_output_on_failure_witness :
    (runnerRun (fun _ => none) (some []) (.error .noDefaultProvider) (fun _ _ => none)
      .ModeScript ("s".data)).outWrites = [] :=
  (runner_no_output_on_failure (fun _ => none) (some []) (.error .noDefaultProvider)
    (fun _ _ => none) .ModeScript ("s".data)
    (.resolveFailed (.readFailed ("s".data))) rfl).1

/-- Claim C1: evaluation at the failing scenario.  On a successful run
whose provider response is a fenced block, `Runner.Run` writes the raw
response (plus the appended newline) to stdout; the output filter is never
invoked, although applying it would give a different, stripped text. -/
theorem runner_writes_raw_unfiltered_response :
    (runnerRun (fun _ => none) (some ("x".data)) (.ok (.gemini "k" "m"))
        (fun _ _ => some ("```json\nhello\n```".data)) .ModeAdHoc ("task".data)).outWrites =
      ["```json\nhello\n```".data, "\n".data] ∧
    applyFilter ("```json\nhello\n```".data) = some ("hello".data) ∧
    ("```json\nhello\n```".data : GoStr) ≠ "hello".data := by
  refine ⟨rfl, by decide, by decide⟩

/-- Claim C10, amended: `WriteToStdout` appends a newline exactly when the
written data is non-empty and does not already end with one, so every
non-empty write ends with a trailing newline; for the empty string nothing
but the empty write happens and no newline is appended. -/
theorem writeToStdout_trailing_newline (data : GoStr) (h : data ≠ []) :
    (concatAll (writeToStdoutData data)).getLast? = some '\n' := by
  unfold writeToStdoutData concatAll
  split
  · simp only [List.foldr]
    rw [List.getLast?_append_of_ne_nil _ (by simp : ("\n".data ++ [] : GoStr) ≠ [])]
    decide
  · rename_i hcond
    push_neg at hcond
    simp only [List.foldr, List.append_nil]
    exact hcond (List.length_pos.mpr h)

/-- Claim C10 witness: a short newline-free response is written with a
trailing newline. -/
theorem writeToStdout_trailing_newline_witness :
    (concatAll (writeToStdoutData ("ok".data))).getLast? = some '\n' :=
  writeToStdout_trailing_newline ("ok".data) (by decide)

/-- Claim C10 counterexample: for the empty response `WriteToStdout` writes
only the empty chunk and appends no newline, so the output does not end
with a newline, contrary to the claim's "including when the response text
is the empty string". -/
theorem writeToStdout_empty_counterexample :
    writeToStdoutData [] = [[]] ∧ (concatAll (writeToStdoutData [])).getLast? = none := by
  refine ⟨rfl, rfl⟩

end Dreampipe
